import Mathlib

/-!
Verification of the NER / PII-detection service core (`ner-service/main.py`):
the label normalizer, the per-item and per-request caches, the batch
coordinator, the readiness gate and the `/detect-pii` handler, shallowly
embedded as executable Lean definitions.  The entity extractor (the GLiNER
model) is an external collaborator and is modelled as an opaque pair of
fallible functions.  Confidence scores are carried opaquely; we embed them
as rationals.
-/

namespace NerService

/-- A raw entity as returned by the extractor: `{"text", "label", "score"}`. -/
structure RawEntity where
  text : String
  label : String
  score : Rat
deriving DecidableEq

/-- A `NerEntity` of the response model: `{"text", "type", "score"}`. -/
structure NerEntity where
  text : String
  type : String
  score : Rat
deriving DecidableEq

/-- The external GLiNER model handle: a single-text predictor
(`predict_entities`) and an optional batch predictor
(`predict_entities_batch`, present iff `hasattr(...)` holds).  Either call
may raise, modelled as `Except Unit`. -/
structure Extractor where
  predict_entities : String → List String → Rat → Except Unit (List RawEntity)
  predict_entities_batch : Option (List String → List String → Rat → Except Unit (List (List RawEntity)))

/-- The process-wide candidate PII label list (`pii_entity_types`). -/
def pii_entity_types : List String := [
  "person", "organization", "phone number", "address", "passport number",
  "email", "credit card number", "social security number",
  "health insurance id number", "date of birth", "mobile phone number",
  "bank account number", "medication", "cpf", "driver\x27s license number",
  "tax identification number", "medical condition", "identity card number",
  "national id number", "ip address", "email address", "iban",
  "credit card expiration date", "username", "health insurance number",
  "registration number", "student id number", "insurance number",
  "flight number", "landline phone number", "blood type", "cvv",
  "reservation number", "digital signature", "social media handle",
  "license plate number", "cnpj", "postal code", "serial number",
  "vehicle registration number", "credit card brand", "fax number",
  "visa number", "insurance company", "identity document number",
  "transaction number", "national health insurance number", "cvc",
  "birth certificate number", "train ticket number", "passport expiration date"]

/-- `entity_type.upper().replace(" ", "_")`: both Python operations are
character-wise, so we embed them as two character maps. -/
def normalizedLabel (s : String) : String :=
  String.mk ((s.data.map Char.toUpper).map (fun c => if c = ' ' then '_' else c))

/-- The static synonym table of `map_to_standard_entity_type`. -/
def entity_type_mapping : List (String × String) := [
  ("PERSON", "PER"),
  ("PERSON_NAME", "PER"),
  ("ORGANIZATION", "ORG"),
  ("PHONE_NUMBER", "PHONE"),
  ("MOBILE_PHONE_NUMBER", "PHONE"),
  ("LANDLINE_PHONE_NUMBER", "PHONE"),
  ("EMAIL", "EMAIL"),
  ("EMAIL_ADDRESS", "EMAIL"),
  ("SOCIAL_SECURITY_NUMBER", "SSN"),
  ("CREDIT_CARD_NUMBER", "CREDIT_CARD"),
  ("PASSPORT_NUMBER", "PASSPORT"),
  ("DRIVERS_LICENSE_NUMBER", "DRIVERS_LICENSE"),
  ("BANK_ACCOUNT_NUMBER", "BANK_ACCOUNT"),
  ("NATIONAL_ID_NUMBER", "NATIONAL_ID"),
  ("IDENTITY_CARD_NUMBER", "ID_CARD")]

/-- `map_to_standard_entity_type`: normalize, then look the result up in the
synonym table, falling back to the normalized string itself. -/
def map_to_standard_entity_type (entity_type : String) : String :=
  let normalized := normalizedLabel entity_type
  (entity_type_mapping.lookup normalized).getD normalized

/-- Python whitespace characters stripped by `str.strip()`. -/
def pyIsSpace (c : Char) : Bool :=
  c = ' ' || c = '\t' || c = '\n' || c = '\r' || c = '\x0b' || c = '\x0c'

/-- `text.strip()`: drop whitespace from both ends. -/
def pyStrip (s : String) : String :=
  String.mk (((s.data.dropWhile pyIsSpace).reverse.dropWhile pyIsSpace).reverse)

/-- `if not text.strip()`: truthiness of the stripped string. -/
def isBlank (s : String) : Bool :=
  (pyStrip s).data.isEmpty

/-- Conversion of one raw extractor entity into a response entity, as done
inside `cached_process_text` and `process_batch`. -/
def toNerEntity (e : RawEntity) : NerEntity :=
  { text := e.text, type := map_to_standard_entity_type e.label, score := e.score }

/-- The body of `cached_process_text` (memoization aside): blank text
short-circuits to `[]`; an extractor exception is caught and degrades to
`[]`; otherwise each predicted entity is converted via the normalizer. -/
def cached_process_text (E : Extractor) (text : String)
    (entity_types_tuple : List String) (threshold : Rat) : List NerEntity :=
  if isBlank text then []
  else
    match E.predict_entities text entity_types_tuple threshold with
    | Except.ok entities => entities.map toNerEntity
    | Except.error _ => []

/-- `process_text_sample`: delegate to the cached single-text processor. -/
def process_text_sample (E : Extractor) (text : String)
    (entity_types : List String) (threshold : Rat) : List NerEntity :=
  cached_process_text E text entity_types threshold

/-- `valid_texts = [(i, text) for i, text in enumerate(texts) if text.strip()]`. -/
def valid_texts (texts : List String) : List (Nat × String) :=
  texts.enum.filter (fun it => !(isBlank it.2))

/-- `process_batch`: filter out blank texts; if a batch predictor exists,
call it once on the non-blank texts and scatter the converted results back
to their original positions (an out-of-range index or a raised exception is
caught by the surrounding `try` and degrades the whole batch to empty
lists); otherwise process each non-blank text individually.  The output
always has one entry per input text. -/
def process_batch (E : Extractor) (texts : List String)
    (entity_types : List String) (threshold : Rat) : List (List NerEntity) :=
  let vts := valid_texts texts
  if vts.isEmpty then texts.map (fun _ => [])
  else
    match E.predict_entities_batch with
    | some batchFn =>
      let batch_texts := vts.map (fun it => it.2)
      match batchFn batch_texts entity_types threshold with
      | Except.error _ => texts.map (fun _ => [])
      | Except.ok batch_entities =>
        if batch_entities.length < vts.length then texts.map (fun _ => [])
        else
          vts.enum.foldl
            (fun results p =>
              results.set p.2.1 ((batch_entities.getD p.1 []).map toNerEntity))
            (texts.map (fun _ => []))
    | none =>
      vts.foldl
        (fun results p =>
          results.set p.1 (process_text_sample E p.2 entity_types threshold))
        (texts.map (fun _ => []))

/-- `CACHE_SIZE = 1000`: capacity of both the request cache and the
per-item LRU cache. -/
def CACHE_SIZE : Nat := 1000

/-- `calc_cache_key`: concatenate `str(hash(s))` over the first 10 samples.
The `hash` builtin of Python is opaque, so it is a parameter. -/
def calc_cache_key (pyHash : String → Int) (samples : List String) : String :=
  ((samples.take 10).map (fun s => toString (pyHash s))).foldl (fun k h => k ++ h) ""

/-- The mutable module state read and written by the request path:
`is_model_ready`, `gliner_model` and `model_loading_error` globals plus the
`request_cache` dict (modelled as an association list, newest entry
first). -/
structure ServerState where
  is_model_ready : Bool
  gliner_model : Option Extractor
  model_loading_error : Option String
  request_cache : List (String × List (List NerEntity))

/-- The HTTP error exits of the `/detect-pii` handler. -/
inductive DetectError where
  | unavailable503 : String → DetectError
  | badRequest400 : String → DetectError
deriving DecidableEq

/-- The `POST /detect-pii` handler `detect_entities`.  `completionOrder`
models the order in which `as_completed` yields the fan-out futures; the
list the handler builds in that order is discarded when it re-reads every
future by index into `ordered_results`. -/
def detect_entities (pyHash : String → Int) (completionOrder : List Nat)
    (st : ServerState) (samples : List String) :
    Except DetectError (List (List NerEntity)) × ServerState :=
  match st.gliner_model, st.is_model_ready with
  | none, _ =>
    (Except.error (DetectError.unavailable503
      "Model is not loaded yet. Please try again later."), st)
  | some _, false =>
    (Except.error (DetectError.unavailable503
      "Model is not loaded yet. Please try again later."), st)
  | some E, true =>
    if samples.isEmpty then
      (Except.error (DetectError.badRequest400 "No text samples provided"), st)
    else
      let batch_size := min samples.length 100
      let samples100 := samples.take batch_size
      let cache_key := calc_cache_key pyHash samples100
      match st.request_cache.lookup cache_key with
      | some cached => (Except.ok cached, st)
      | none =>
        let results :=
          if E.predict_entities_batch.isSome then
            process_batch E samples100 pii_entity_types 0
          else
            let futures := samples100.map
              (fun text => process_text_sample E text pii_entity_types 0)
            let byCompletion := completionOrder.filterMap (fun i => futures.get? i)
            let ordered_results := futures
            ordered_results
        let cache0 :=
          if CACHE_SIZE ≤ st.request_cache.length then [] else st.request_cache
        (Except.ok results,
         { st with request_cache := (cache_key, results) :: cache0 })

/-- Outcome of the `ensure_model_loaded` HTTP middleware. -/
inductive MiddlewareOutcome where
  | forward : MiddlewareOutcome
  | shortCircuit503 : String → MiddlewareOutcome
deriving DecidableEq

/-- The path at which the health route is mounted
(`@app.get("/detect-pii/health")`). -/
def health_endpoint_path : String := "/detect-pii/health"

/-- The `ensure_model_loaded` middleware: pass through requests whose path
equals `"/health"`; otherwise short-circuit with the 503-equivalent body
when the model is not ready. -/
def ensure_model_loaded (is_model_ready : Bool) (model_loading_error : Option String)
    (path : String) : MiddlewareOutcome :=
  if path = "/health" then MiddlewareOutcome.forward
  else if !is_model_ready then
    MiddlewareOutcome.shortCircuit503
      (model_loading_error.getD "Model is not loaded yet. Please try again later.")
  else MiddlewareOutcome.forward

/-- The `status` field computed by the `health_check` handler. -/
def health_check_status (is_model_ready : Bool) (gliner_model : Option Extractor)
    (model_loading_error : Option String) : String :=
  if is_model_ready && gliner_model.isSome then "ok"
  else if !is_model_ready && model_loading_error.isSome then "error"
  else "initializing"

/-- `load_model_in_background`, as one atomic step under `model_lock`:
if the cross-worker `model_ready` flag is already set, only mark this
worker ready; otherwise attempt the load (`loadResult` models
`GLiNER.from_pretrained`), on success install the model and set both
flags, on failure record the error.  Returns the new shared flag and the
new worker state. -/
def load_model_in_background (loadResult : Except String Extractor)
    (model_ready : Bool) (st : ServerState) : Bool × ServerState :=
  if model_ready then
    (model_ready, { st with is_model_ready := true })
  else
    match loadResult with
    | Except.ok m =>
      (true, { st with gliner_model := some m, is_model_ready := true })
    | Except.error e =>
      (model_ready, { st with model_loading_error := some e, is_model_ready := false })

/-- The memo table of `@lru_cache(maxsize=CACHE_SIZE)` on
`cached_process_text`, most recently used entry first. -/
structure LruCache where
  entries : List ((String × List String × Rat) × List NerEntity)

/-- One call of the memoized `cached_process_text`, with the cache state
threaded explicitly.  Returns the result, the new cache and the number of
`gliner_model.predict_entities` invocations made by this call (`0` or `1`).
A hit returns the stored value and refreshes the recency of the entry; a miss
runs the body (blank short-circuit, extractor call, exception degraded to
`[]`), stores the result and evicts the least recent entry beyond
capacity. -/
def cached_process_text_st (E : Extractor) (cache : LruCache) (text : String)
    (entity_types_tuple : List String) (threshold : Rat) :
    List NerEntity × LruCache × Nat :=
  let key := (text, entity_types_tuple, threshold)
  match cache.entries.lookup key with
  | some v =>
    (v, ⟨(key, v) :: cache.entries.filter (fun e => !(e.1 = key : Bool))⟩, 0)
  | none =>
    let computed : List NerEntity × Nat :=
      if isBlank text then ([], 0)
      else
        match E.predict_entities text entity_types_tuple threshold with
        | Except.ok entities => (entities.map toNerEntity, 1)
        | Except.error _ => ([], 1)
    (computed.1, ⟨((key, computed.1) :: cache.entries).take CACHE_SIZE⟩, computed.2)

/-! ### Extractor instances and derived result notions used by the theorems -/

/-- An extractor whose single-text call never raises and is induced by a
pure span function `ex`; when `useBatch` is set its batch call maps `ex`
over the batch (the documented contract of `predict_entities_batch`). -/
def pureExtractor (ex : String → List RawEntity) (useBatch : Bool) : Extractor :=
  { predict_entities := fun t _ _ => Except.ok (ex t),
    predict_entities_batch :=
      if useBatch then some (fun ts _ _ => Except.ok (ts.map ex)) else none }

/-- The intended per-item result: blank text yields `[]`, otherwise the
spans of the extractor pass through the type normalizer. -/
def itemExtraction (ex : String → List RawEntity) (t : String) : List NerEntity :=
  if isBlank t then [] else (ex t).map toNerEntity

/-- An extractor without a batch call that raises exactly on the text
`bad` and otherwise behaves like `pureExtractor ex false`. -/
def failingOnExtractor (ex : String → List RawEntity) (bad : String) : Extractor :=
  { predict_entities := fun t _ _ =>
      if t = bad then Except.error () else Except.ok (ex t),
    predict_entities_batch := none }

/-- An extractor whose batch call always raises. -/
def failingBatchExtractor (ex : String → List RawEntity) : Extractor :=
  { predict_entities := fun t _ _ => Except.ok (ex t),
    predict_entities_batch := some (fun _ _ _ => Except.error ()) }

/-- The value the handler computes on a request-cache miss: the batch
strategy when the extractor has a batch call, the fan-out strategy
otherwise, over the truncated sample list. -/
def coordinatorResults (E : Extractor) (samples : List String) :
    List (List NerEntity) :=
  if E.predict_entities_batch.isSome then
    process_batch E (samples.take 100) pii_entity_types 0
  else
    (samples.take 100).map (fun t => process_text_sample E t pii_entity_types 0)

/-- The span function of the end-to-end example: one PER span for the text
`"John Doe called"`, nothing elsewhere. -/
def exampleEx (t : String) : List RawEntity :=
  if t = "John Doe called" then [{ text := "John Doe", label := "person", score := 9 / 10 }]
  else []

/-- A span function used by concrete witnesses: one span naming the text
itself, labelled `"email"`. -/
def echoEx (t : String) : List RawEntity :=
  [{ text := t, label := "email", score := 1 / 2 }]

/-! ### Lemmas about the label normalizer -/

theorem toNat_ofNat_valid {n : Nat} (h : n < 55296) : (Char.ofNat n).toNat = n := by
  have hv : n.isValidChar := Or.inl h
  rw [Char.ofNat, dif_pos hv]
  rfl

theorem toUpper_def (d : Char) :
    d.toUpper = if d.toNat ≥ 97 ∧ d.toNat ≤ 122 then Char.ofNat (d.toNat - 32) else d :=
  rfl

theorem toUpper_idem (c : Char) : c.toUpper.toUpper = c.toUpper := by
  rw [toUpper_def c]
  by_cases h : c.toNat ≥ 97 ∧ c.toNat ≤ 122
  · rw [if_pos h, toUpper_def]
    have hv : (Char.ofNat (c.toNat - 32)).toNat = c.toNat - 32 :=
      toNat_ofNat_valid (by omega)
    rw [if_neg (by rw [hv]; omega)]
  · rw [if_neg h, toUpper_def, if_neg h]

theorem normChar_idem (c : Char) :
    (if Char.toUpper (if Char.toUpper c = ' ' then '_' else Char.toUpper c) = ' '
     then '_'
     else Char.toUpper (if Char.toUpper c = ' ' then '_' else Char.toUpper c))
    = (if Char.toUpper c = ' ' then '_' else Char.toUpper c) := by
  by_cases h : Char.toUpper c = ' '
  · simp only [if_pos h]
    decide
  · rw [if_neg h, toUpper_idem, if_neg h]

theorem normalizedLabel_idem (s : String) :
    normalizedLabel (normalizedLabel s) = normalizedLabel s := by
  unfold normalizedLabel
  simp only [List.map_map]
  exact congrArg String.mk (List.map_congr_left (fun c _ => normChar_idem c))

theorem mapping_values_fixed :
    ∀ p ∈ entity_type_mapping, map_to_standard_entity_type p.2 = p.2 := by
  decide

theorem map_std_idem (x : String) :
    map_to_standard_entity_type (map_to_standard_entity_type x)
      = map_to_standard_entity_type x := by
  cases hl : entity_type_mapping.lookup (normalizedLabel x) with
  | some v =>
    have hm : map_to_standard_entity_type x = v := by
      simp only [map_to_standard_entity_type]
      rw [hl]
      rfl
    rw [hm]
    obtain ⟨l₁, l₂, hsplit, -⟩ := List.lookup_eq_some_iff.mp hl
    have hmem : (normalizedLabel x, v) ∈ entity_type_mapping := by
      rw [hsplit]
      simp
    exact mapping_values_fixed _ hmem
  | none =>
    have hm : map_to_standard_entity_type x = normalizedLabel x := by
      simp only [map_to_standard_entity_type]
      rw [hl]
      rfl
    rw [hm]
    simp only [map_to_standard_entity_type]
    rw [normalizedLabel_idem, hl]
    rfl

/-! ### Lemmas about the scatter folds of the batch coordinator -/

/-- Folding over an enumerated list where the written value is a function of
the enumeration counter equals folding over the plain list, provided the two
value functions agree position by position. -/
theorem foldl_enumFrom_set (l : List (Nat × String)) :
    ∀ (k : Nat) (F : Nat → List NerEntity) (G : Nat × String → List NerEntity)
      (base : List (List NerEntity)),
      (∀ i x, l.get? i = some x → F (k + i) = G x) →
      (l.enumFrom k).foldl (fun results p => results.set p.2.1 (F p.1)) base
        = l.foldl (fun results q => results.set q.1 (G q)) base := by
  induction l with
  | nil => intro k F G base _; rfl
  | cons q l ih =>
    intro k F G base h
    simp only [List.enumFrom_cons, List.foldl_cons]
    have h0 : F k = G q := by simpa using h 0 q rfl
    rw [h0]
    refine ih (k + 1) F G _ (fun i x hx => ?_)
    have := h (i + 1) x (by simpa using hx)
    simpa [Nat.add_assoc, Nat.add_comm 1 i] using this

theorem set_append_length (A : List (List NerEntity)) (l : List (List NerEntity))
    (v : List NerEntity) : (A ++ l).set A.length v = A ++ l.set 0 v := by
  rw [List.set_append_right _ _ (Nat.le_refl _), Nat.sub_self]

/-- Scattering `g` over the non-blank positions of `xs` (enumerated starting
at the length of an already-finished portion `A`) turns the all-empty tail
into the pointwise blank-guarded image of `g`. -/
theorem scatter_filter_eq (g : String → List NerEntity) :
    ∀ (xs : List String) (A : List (List NerEntity)),
      ((xs.enumFrom A.length).filter (fun it => !(isBlank it.2))).foldl
          (fun results q => results.set q.1 (g q.2))
          (A ++ xs.map (fun _ => []))
        = A ++ xs.map (fun x => if isBlank x then [] else g x) := by
  intro xs
  induction xs with
  | nil => intro A; simp
  | cons x xs ih =>
    intro A
    by_cases hb : isBlank x
    · rw [List.enumFrom_cons, List.filter_cons_of_neg (by simp [hb])]
      have hbase : A ++ (x :: xs).map (fun _ => ([] : List NerEntity))
          = (A ++ [[]]) ++ xs.map (fun _ => []) := by simp
      rw [hbase]
      have hlen : (A ++ [([] : List NerEntity)]).length = A.length + 1 := by simp
      have := ih (A ++ [[]])
      rw [hlen] at this
      rw [this]
      simp [hb]
    · rw [List.enumFrom_cons, List.filter_cons_of_pos (by simp [hb]), List.foldl_cons]
      have hstep : (A ++ (x :: xs).map (fun _ => ([] : List NerEntity))).set
            (A.length, x).1 (g (A.length, x).2)
          = (A ++ [g x]) ++ xs.map (fun _ => []) := by
        rw [show (x :: xs).map (fun _ => ([] : List NerEntity))
              = [] :: xs.map (fun _ => []) from rfl]
        rw [set_append_length]
        simp
      rw [hstep]
      have hlen2 : (A ++ [g x]).length = A.length + 1 := by simp
      have := ih (A ++ [g x])
      rw [hlen2] at this
      rw [this]
      simp [hb]

/-- Positions never written by a scatter fold keep their base value. -/
theorem foldl_set_getD_ne {γ : Type} (i : Nat) :
    ∀ (ps : List γ) (idx : γ → Nat) (F : γ → List NerEntity)
      (base : List (List NerEntity)),
      (∀ p ∈ ps, idx p ≠ i) →
      (ps.foldl (fun results p => results.set (idx p) (F p)) base).getD i []
        = base.getD i [] := by
  intro ps
  induction ps with
  | nil => intro idx F base _; rfl
  | cons p ps ih =>
    intro idx F base h
    simp only [List.foldl_cons]
    rw [ih idx F _ (fun q hq => h q (List.mem_cons_of_mem p hq))]
    simp only [List.getD_eq_getElem?_getD]
    rw [List.getElem?_set_ne (h p (List.mem_cons_self p ps))]

theorem cached_process_text_pure (ex : String → List RawEntity) (b : Bool)
    (t : String) (lbls : List String) (θ : Rat) :
    cached_process_text (pureExtractor ex b) t lbls θ = itemExtraction ex t := rfl

/-- Every text of a list whose `valid_texts` filter is empty is blank. -/
theorem all_blank_of_valid_empty {texts : List String}
    (hv : (valid_texts texts).isEmpty) : ∀ t ∈ texts, isBlank t := by
  intro t ht
  have hnil : valid_texts texts = [] := List.isEmpty_iff.mp hv
  have hmem : t ∈ texts.enum.map (fun p => p.2) := by
    rw [List.enum_map_snd texts]
    exact ht
  obtain ⟨it, hit, hsnd⟩ := List.mem_map.mp hmem
  by_contra hnb
  have : it ∈ valid_texts texts :=
    List.mem_filter.mpr ⟨hit, by rw [hsnd]; simpa using hnb⟩
  rw [hnil] at this
  exact absurd this (List.not_mem_nil _)

/-- `process_batch` under a well-behaved batch extractor produces exactly
the per-item extraction of every input, in input order. -/
theorem process_batch_pure (ex : String → List RawEntity) (texts : List String)
    (lbls : List String) (θ : Rat) :
    process_batch (pureExtractor ex true) texts lbls θ
      = texts.map (itemExtraction ex) := by
  by_cases hv : (valid_texts texts).isEmpty
  · simp only [process_batch, hv, if_true]
    exact List.map_congr_left
      (fun t ht => by simp [itemExtraction, all_blank_of_valid_empty hv t ht])
  · have hbatch : (pureExtractor ex true).predict_entities_batch
        = some (fun ts _ _ => Except.ok (ts.map ex)) := rfl
    simp only [process_batch, hv, Bool.false_eq_true, if_false, hbatch,
      List.length_map, lt_self_iff_false]
    rw [List.enum_eq_enumFrom]
    rw [foldl_enumFrom_set (valid_texts texts) 0
      (fun i => ((((valid_texts texts).map (fun it => it.2)).map ex).getD i []).map toNerEntity)
      (fun q => (ex q.2).map toNerEntity)
      (texts.map (fun _ => []))
      (fun i x hx => by
        dsimp only
        rw [List.get?_eq_getElem?] at hx
        have h2 : (((valid_texts texts).map (fun it => it.2)).map ex)[i]?
            = some (ex x.2) := by
          rw [List.getElem?_map, List.getElem?_map, hx]
          rfl
        rw [Nat.zero_add, List.getD_eq_getElem?_getD, h2]
        rfl)]
    have hs := scatter_filter_eq (fun t => (ex t).map toNerEntity) texts []
    simp only [List.length_nil, List.nil_append] at hs
    simp only [valid_texts, List.enum_eq_enumFrom]
    rw [hs]
    exact List.map_congr_left (fun t _ => rfl)

/-! ### Characterization of a `/detect-pii` request -/

theorem take_min_100 (samples : List String) :
    samples.take (min samples.length 100) = samples.take 100 := by
  rcases Nat.le_total samples.length 100 with h | h
  · rw [Nat.min_eq_left h, List.take_length, List.take_of_length_le h]
  · rw [Nat.min_eq_right h]

/-- A ready server with an empty request cache answers a non-empty request
with the coordinator results and stores them under the request key. -/
theorem detect_entities_run (pyHash : String → Int) (ord : List Nat)
    (E : Extractor) (err : Option String) (samples : List String)
    (hs : ¬ samples.isEmpty) :
    detect_entities pyHash ord ⟨true, some E, err, []⟩ samples
      = (Except.ok (coordinatorResults E samples),
         ⟨true, some E, err,
          [(calc_cache_key pyHash (samples.take 100), coordinatorResults E samples)]⟩) := by
  simp only [detect_entities, hs, Bool.false_eq_true, if_false, take_min_100,
    List.lookup_nil, coordinatorResults, CACHE_SIZE]
  norm_num

theorem coordinatorResults_pure (ex : String → List RawEntity) (b : Bool)
    (samples : List String) :
    coordinatorResults (pureExtractor ex b) samples
      = (samples.take 100).map (itemExtraction ex) := by
  cases b with
  | true =>
    have hsome : (pureExtractor ex true).predict_entities_batch.isSome = true := rfl
    simp only [coordinatorResults, hsome, if_true]
    exact process_batch_pure ex (samples.take 100) pii_entity_types 0
  | false =>
    have hnone : (pureExtractor ex false).predict_entities_batch.isSome = false := rfl
    simp only [coordinatorResults, hnone, Bool.false_eq_true, if_false]
    exact List.map_congr_left (fun t _ => cached_process_text_pure ex false t _ _)

theorem coordinatorResults_fanout (E : Extractor)
    (hE : E.predict_entities_batch = none) (samples : List String) :
    coordinatorResults E samples
      = (samples.take 100).map (fun t => cached_process_text E t pii_entity_types 0) := by
  simp only [coordinatorResults, hE, Option.isSome_none, Bool.false_eq_true, if_false]
  exact List.map_congr_left (fun t _ => rfl)

theorem cached_failingOn_bad (ex : String → List RawEntity) (bad : String)
    (lbls : List String) (θ : Rat) :
    cached_process_text (failingOnExtractor ex bad) bad lbls θ = [] := by
  by_cases hb : isBlank bad
  · simp [cached_process_text, hb]
  · simp [cached_process_text, hb, failingOnExtractor]

theorem cached_failingOn_other (ex : String → List RawEntity) (bad t : String)
    (ht : t ≠ bad) (lbls : List String) (θ : Rat) :
    cached_process_text (failingOnExtractor ex bad) t lbls θ = itemExtraction ex t := by
  by_cases hb : isBlank t
  · simp [cached_process_text, itemExtraction, hb]
  · simp [cached_process_text, itemExtraction, hb, failingOnExtractor, ht]

theorem process_batch_failing (ex : String → List RawEntity) (texts : List String)
    (lbls : List String) (θ : Rat) :
    process_batch (failingBatchExtractor ex) texts lbls θ = texts.map (fun _ => []) := by
  by_cases hv : (valid_texts texts).isEmpty
  · simp only [process_batch, hv, if_true]
  · have hbatch : (failingBatchExtractor ex).predict_entities_batch
        = some (fun _ _ _ => Except.error ()) := rfl
    simp only [process_batch, hv, Bool.false_eq_true, if_false, hbatch]

theorem valid_texts_idx_ne (texts : List String) (i : Nat)
    (hblank : isBlank (texts.getD i "")) :
    ∀ p ∈ valid_texts texts, p.1 ≠ i := by
  intro p hp hpi
  obtain ⟨hmem, hnb⟩ := List.mem_filter.mp hp
  have hget : texts[p.1]? = some p.2 := List.mem_enum_iff_getElem?.mp hmem
  rw [hpi] at hget
  have heq : texts.getD i "" = p.2 := by
    rw [List.getD_eq_getElem?_getD, hget]
    rfl
  rw [heq] at hblank
  simp [hblank] at hnb

theorem blank_not_in_batch_texts (texts : List String) (t : String)
    (hblank : isBlank t) : t ∉ (valid_texts texts).map (fun it => it.2) := by
  intro hmem
  obtain ⟨p, hp, hsnd⟩ := List.mem_map.mp hmem
  have hnb := (List.mem_filter.mp hp).2
  rw [hsnd] at hnb
  simp [hblank] at hnb

theorem process_batch_blank_position (E : Extractor) (texts lbls : List String)
    (θ : Rat) (i : Nat) (hi : i < texts.length)
    (hblank : isBlank (texts.getD i "")) :
    (process_batch E texts lbls θ).getD i [] = [] := by
  have hbase : (texts.map (fun _ => ([] : List NerEntity))).getD i [] = [] := by
    simp only [List.getD_eq_getElem?_getD, List.getElem?_map,
      List.getElem?_eq_getElem hi]
    rfl
  have hne := valid_texts_idx_ne texts i hblank
  by_cases hv : (valid_texts texts).isEmpty
  · simp only [process_batch, hv, if_true]
    exact hbase
  · cases hB : E.predict_entities_batch with
    | none =>
      simp only [process_batch, hv, Bool.false_eq_true, if_false, hB]
      exact (foldl_set_getD_ne i (valid_texts texts) (fun p => p.1) _ _ hne).trans hbase
    | some bf =>
      cases hr : bf ((valid_texts texts).map (fun it => it.2)) lbls θ with
      | error e =>
        simp only [process_batch, hv, Bool.false_eq_true, if_false, hB, hr]
        exact hbase
      | ok bs =>
        simp only [process_batch, hv, Bool.false_eq_true, if_false, hB, hr]
        by_cases hlen : bs.length < (valid_texts texts).length
        · rw [if_pos hlen]
          exact hbase
        · rw [if_neg hlen]
          refine (foldl_set_getD_ne i (valid_texts texts).enum
            (fun p => p.2.1) _ _ ?_).trans hbase
          intro p hp
          have hsnd : (valid_texts texts)[p.1]? = some p.2 :=
            List.mem_enum_iff_getElem?.mp hp
          exact hne p.2 (List.getElem?_mem hsnd)

/-! ### Claim theorems -/

/-- C2: for every accepted request of `N` texts (after truncation,
`N ≥ 1`), `detect_entities` returns exactly `N` entity lists whose `i`-th
list is the extraction result for the `i`-th input text, under both the
native-batch strategy (`b = true`) and the thread-pool fan-out strategy
(`b = false`), and for every completion order `ord` of the per-item
tasks. -/
theorem detect_entities_order_preservation
    (pyHash : String → Int) (ord : List Nat) (ex : String → List RawEntity)
    (b : Bool) (err : Option String) (samples : List String)
    (hs : ¬ samples.isEmpty = true) :
    ∃ r, (detect_entities pyHash ord
            ⟨true, some (pureExtractor ex b), err, []⟩ samples).1
        = Except.ok r
      ∧ r.length = min samples.length 100
      ∧ ∀ i, i < r.length →
          r.getD i [] = itemExtraction ex (samples.getD i "") := by
  refine ⟨(samples.take 100).map (itemExtraction ex), ?_, ?_, ?_⟩
  · rw [detect_entities_run pyHash ord _ err samples hs]
    rw [show (Except.ok (coordinatorResults (pureExtractor ex b) samples),
        (⟨true, some (pureExtractor ex b), err,
          [(calc_cache_key pyHash (samples.take 100),
            coordinatorResults (pureExtractor ex b) samples)]⟩ : ServerState)).1
      = Except.ok (coordinatorResults (pureExtractor ex b) samples) from rfl]
    rw [coordinatorResults_pure]
  · simp [Nat.min_comm]
  · intro i hi
    simp only [List.length_map, List.length_take] at hi
    have hi100 : i < 100 := lt_of_lt_of_le hi (Nat.min_le_left _ _)
    have hilen : i < samples.length := lt_of_lt_of_le hi (Nat.min_le_right _ _)
    simp only [List.getD_eq_getElem?_getD, List.getElem?_map,
      List.getElem?_take_of_lt hi100, List.getElem?_eq_getElem hilen]
    rfl

/-- Witness for C2 at the end-to-end example request
`["John Doe called", ""]` processed by the fan-out strategy. -/
theorem detect_entities_order_preservation_witness :
    ¬ (["John Doe called", ""] : List String).isEmpty = true
    ∧ ∃ r, (detect_entities (fun _ => 0) [1, 0]
            ⟨true, some (pureExtractor exampleEx false), none, []⟩
            ["John Doe called", ""]).1
        = Except.ok r
      ∧ r.length = min (["John Doe called", ""] : List String).length 100
      ∧ ∀ i, i < r.length →
          r.getD i []
            = itemExtraction exampleEx
                ((["John Doe called", ""] : List String).getD i "") :=
  ⟨by decide,
   detect_entities_order_preservation (fun _ => 0) [1, 0] exampleEx false none
     ["John Doe called", ""] (by decide)⟩

/-- C3: on the fan-out path an exception for one text degrades only that
result of that text to `[]`, leaving every other position as in the failure-free
run; a raised batch call degrades the entire batch to empty lists; in both
cases the handler still answers `Except.ok`, never a request error. -/
theorem detect_entities_failure_isolation
    (pyHash : String → Int) (ord : List Nat) (ex : String → List RawEntity)
    (bad : String) (err : Option String) (samples : List String)
    (hs : ¬ samples.isEmpty = true) :
    (∃ rf rp,
      (detect_entities pyHash ord
          ⟨true, some (failingOnExtractor ex bad), err, []⟩ samples).1
        = Except.ok rf
      ∧ (detect_entities pyHash ord
            ⟨true, some (pureExtractor ex false), err, []⟩ samples).1
        = Except.ok rp
      ∧ rf.length = rp.length
      ∧ ∀ i, i < rf.length →
          (samples.getD i "" = bad → rf.getD i [] = [])
          ∧ (samples.getD i "" ≠ bad → rf.getD i [] = rp.getD i []))
    ∧ (detect_entities pyHash ord
          ⟨true, some (failingBatchExtractor ex), err, []⟩ samples).1
        = Except.ok ((samples.take 100).map (fun _ => [])) := by
  constructor
  · refine ⟨(samples.take 100).map
        (fun t => cached_process_text (failingOnExtractor ex bad) t pii_entity_types 0),
      (samples.take 100).map (itemExtraction ex), ?_, ?_, ?_, ?_⟩
    · rw [detect_entities_run pyHash ord _ err samples hs]
      exact congrArg Except.ok (coordinatorResults_fanout _ rfl samples)
    · rw [detect_entities_run pyHash ord _ err samples hs]
      exact congrArg Except.ok (coordinatorResults_pure ex false samples)
    · simp
    · intro i hi
      simp only [List.length_map, List.length_take] at hi
      have hi100 : i < 100 := lt_of_lt_of_le hi (Nat.min_le_left _ _)
      have hilen : i < samples.length := lt_of_lt_of_le hi (Nat.min_le_right _ _)
      have hgetf : ((samples.take 100).map
            (fun t => cached_process_text (failingOnExtractor ex bad) t pii_entity_types 0)).getD i []
          = cached_process_text (failingOnExtractor ex bad) (samples.getD i "")
              pii_entity_types 0 := by
        simp only [List.getD_eq_getElem?_getD, List.getElem?_map,
          List.getElem?_take_of_lt hi100, List.getElem?_eq_getElem hilen]
        rfl
      have hgetp : ((samples.take 100).map (itemExtraction ex)).getD i []
          = itemExtraction ex (samples.getD i "") := by
        simp only [List.getD_eq_getElem?_getD, List.getElem?_map,
          List.getElem?_take_of_lt hi100, List.getElem?_eq_getElem hilen]
        rfl
      constructor
      · intro hbad
        rw [hgetf, hbad]
        exact cached_failingOn_bad ex bad _ _
      · intro hne
        rw [hgetf, hgetp]
        exact cached_failingOn_other ex bad _ hne _ _
  · rw [detect_entities_run pyHash ord _ err samples hs]
    refine congrArg Except.ok ?_
    have hsome : (failingBatchExtractor ex).predict_entities_batch.isSome = true := rfl
    simp only [coordinatorResults, hsome, if_true]
    exact process_batch_failing ex (samples.take 100) pii_entity_types 0

/-- Witness for C3: five samples with the extractor raising on index 2. -/
theorem detect_entities_failure_isolation_witness :
    ¬ (["a", "b", "x", "d", "e"] : List String).isEmpty = true
    ∧ ((∃ rf rp,
      (detect_entities (fun _ => 0) []
          ⟨true, some (failingOnExtractor echoEx "x"), none, []⟩
          ["a", "b", "x", "d", "e"]).1
        = Except.ok rf
      ∧ (detect_entities (fun _ => 0) []
            ⟨true, some (pureExtractor echoEx false), none, []⟩
            ["a", "b", "x", "d", "e"]).1
        = Except.ok rp
      ∧ rf.length = rp.length
      ∧ ∀ i, i < rf.length →
          ((["a", "b", "x", "d", "e"] : List String).getD i "" = "x" →
            rf.getD i [] = [])
          ∧ ((["a", "b", "x", "d", "e"] : List String).getD i "" ≠ "x" →
            rf.getD i [] = rp.getD i []))
    ∧ (detect_entities (fun _ => 0) []
          ⟨true, some (failingBatchExtractor echoEx), none, []⟩
          ["a", "b", "x", "d", "e"]).1
        = Except.ok (((["a", "b", "x", "d", "e"] : List String).take 100).map
            (fun _ => []))) :=
  ⟨by decide,
   detect_entities_failure_isolation (fun _ => 0) [] echoEx "x" none
     ["a", "b", "x", "d", "e"] (by decide)⟩

/-- C4: a blank (empty or whitespace-only) text yields the empty list and
never reaches the extractor: the memoized per-item path performs zero
`predict_entities` calls and (on a fresh key) computes `[]`, the plain
per-item body returns `[]`, and on the native batch path the blank
position of the output stays `[]` while the blank text is excluded from
the texts handed to the batch call. -/
theorem blank_text_short_circuit
    (E : Extractor) (cache : LruCache) (texts lbls : List String) (θ : Rat)
    (t : String) (ht : isBlank t = true)
    (i : Nat) (hi : i < texts.length) (hbi : isBlank (texts.getD i "") = true) :
    (cached_process_text_st E cache t lbls θ).2.2 = 0
    ∧ (cache.entries.lookup (t, lbls, θ) = none →
        (cached_process_text_st E cache t lbls θ).1 = [])
    ∧ cached_process_text E t lbls θ = []
    ∧ (process_batch E texts lbls θ).getD i [] = []
    ∧ (texts.getD i "") ∉ (valid_texts texts).map (fun it => it.2) := by
  refine ⟨?_, ?_, ?_, ?_, ?_⟩
  · cases hl : cache.entries.lookup (t, lbls, θ) with
    | some v => simp only [cached_process_text_st, hl]
    | none => simp only [cached_process_text_st, hl, ht, if_true]
  · intro hl
    simp only [cached_process_text_st, hl, ht, if_true]
  · simp only [cached_process_text, ht, if_true]
  · exact process_batch_blank_position E texts lbls θ i hi hbi
  · exact blank_not_in_batch_texts texts _ hbi

/-- Witness for C4 with the whitespace text `" "` at index 1 of a
two-sample batch. -/
theorem blank_text_short_circuit_witness :
    isBlank " " = true
    ∧ (1 : Nat) < (["hello", " "] : List String).length
    ∧ isBlank ((["hello", " "] : List String).getD 1 "") = true
    ∧ ((cached_process_text_st (pureExtractor echoEx true) ⟨[]⟩ " "
          pii_entity_types 0).2.2 = 0
      ∧ ((⟨[]⟩ : LruCache).entries.lookup (" ", pii_entity_types, 0) = none →
          (cached_process_text_st (pureExtractor echoEx true) ⟨[]⟩ " "
            pii_entity_types 0).1 = [])
      ∧ cached_process_text (pureExtractor echoEx true) " " pii_entity_types 0 = []
      ∧ (process_batch (pureExtractor echoEx true) ["hello", " "]
          pii_entity_types 0).getD 1 [] = []
      ∧ ((["hello", " "] : List String).getD 1 "")
          ∉ (valid_texts ["hello", " "]).map (fun it => it.2)) :=
  ⟨by decide, by decide, by decide,
   blank_text_short_circuit (pureExtractor echoEx true) ⟨[]⟩ ["hello", " "]
     pii_entity_types 0 " " (by decide) 1 (by decide) (by decide)⟩

/-- C5: the label normalizer is idempotent on every raw label string (and
total by construction, so it never throws), and satisfies the three
documented examples; an unmapped label comes back in uppercased,
space-to-underscore form. -/
theorem normalizer_idempotent_and_examples :
    (∀ x : String,
      map_to_standard_entity_type (map_to_standard_entity_type x)
        = map_to_standard_entity_type x)
    ∧ map_to_standard_entity_type "person" = "PER"
    ∧ map_to_standard_entity_type "email address" = "EMAIL"
    ∧ map_to_standard_entity_type "unknown widget" = "UNKNOWN_WIDGET" :=
  ⟨map_std_idem, by decide, by decide, by decide⟩

/-- `detect_entities` never looks past the first 100 samples: on every
state, a request equals the request truncated to its first 100 samples. -/
theorem detect_entities_truncates (pyHash : String → Int) (ord : List Nat)
    (st : ServerState) (samples : List String) :
    detect_entities pyHash ord st samples
      = detect_entities pyHash ord st (samples.take 100) := by
  rcases st with ⟨ready, model, err, cache⟩
  cases model with
  | none => rfl
  | some E =>
    cases ready with
    | false => rfl
    | true =>
      cases samples with
      | nil => rfl
      | cons a l =>
        have hne1 : ((a :: l).isEmpty) = false := rfl
        have hne2 : (((a :: l).take 100).isEmpty) = false := rfl
        simp only [detect_entities, hne1, hne2, Bool.false_eq_true, if_false,
          take_min_100]
        simp only [List.take_take, Nat.min_self]

/-- C6: a request of more than 100 samples is not rejected: it is answered
exactly like the request made of its first 100 samples, in their original
order, and (on a fresh ready server) yields 100 result lists. -/
theorem oversized_request_truncated
    (pyHash : String → Int) (ord : List Nat) (ex : String → List RawEntity)
    (b : Bool) (err : Option String) (samples : List String)
    (hlen : 100 < samples.length) :
    (∀ st, detect_entities pyHash ord st samples
        = detect_entities pyHash ord st (samples.take 100))
    ∧ ∃ r, (detect_entities pyHash ord
              ⟨true, some (pureExtractor ex b), err, []⟩ samples).1
          = Except.ok r
        ∧ r = (samples.take 100).map (itemExtraction ex)
        ∧ r.length = 100 := by
  constructor
  · intro st
    exact detect_entities_truncates pyHash ord st samples
  · refine ⟨(samples.take 100).map (itemExtraction ex), ?_, rfl, ?_⟩
    · have hs : ¬ samples.isEmpty = true := by
        cases samples with
        | nil => simp at hlen
        | cons a l => simp
      rw [detect_entities_run pyHash ord _ err samples hs]
      exact congrArg Except.ok (coordinatorResults_pure ex b samples)
    · simp only [List.length_map, List.length_take]
      omega

/-- Witness for C6 at a 101-sample request. -/
theorem oversized_request_truncated_witness :
    100 < (List.replicate 101 "x").length
    ∧ ((∀ st, detect_entities (fun _ => 0) [] st (List.replicate 101 "x")
        = detect_entities (fun _ => 0) [] st ((List.replicate 101 "x").take 100))
    ∧ ∃ r, (detect_entities (fun _ => 0) []
              ⟨true, some (pureExtractor echoEx false), none, []⟩
              (List.replicate 101 "x")).1
          = Except.ok r
        ∧ r = ((List.replicate 101 "x").take 100).map (itemExtraction echoEx)
        ∧ r.length = 100) :=
  ⟨by decide,
   oversized_request_truncated (fun _ => 0) [] echoEx false none
     (List.replicate 101 "x") (by decide)⟩

theorem lookup_take_cache (k : String × List String × Rat) (v : List NerEntity)
    (l : List ((String × List String × Rat) × List NerEntity)) :
    (((k, v) :: l).take CACHE_SIZE).lookup k = some v := by
  have h1000 : CACHE_SIZE = 999 + 1 := rfl
  rw [h1000, List.take_succ_cons, List.lookup_cons_self]

theorem cache_st_miss_entries (E : Extractor) (cache : LruCache)
    (text : String) (lbls : List String) (θ : Rat)
    (hl : cache.entries.lookup (text, lbls, θ) = none) :
    (cached_process_text_st E cache text lbls θ).2.1.entries
      = (((text, lbls, θ), (cached_process_text_st E cache text lbls θ).1)
          :: cache.entries).take CACHE_SIZE := by
  simp only [cached_process_text_st, hl]

/-- C7: a second call of the memoized per-item processor with the identical
`(text, labels, threshold)` key returns the result of the first call and
performs zero extractor invocations. -/
theorem per_item_cache_no_second_invocation (E : Extractor) (cache : LruCache)
    (text : String) (lbls : List String) (θ : Rat) :
    (cached_process_text_st E
        (cached_process_text_st E cache text lbls θ).2.1 text lbls θ).1
      = (cached_process_text_st E cache text lbls θ).1
    ∧ (cached_process_text_st E
        (cached_process_text_st E cache text lbls θ).2.1 text lbls θ).2.2 = 0 := by
  cases hl : cache.entries.lookup (text, lbls, θ) with
  | some v =>
    have h1 : cached_process_text_st E cache text lbls θ
        = (v, ⟨((text, lbls, θ), v) ::
            cache.entries.filter (fun e => !(e.1 = (text, lbls, θ) : Bool))⟩, 0) := by
      simp only [cached_process_text_st, hl]
    rw [h1]
    constructor <;> simp only [cached_process_text_st, List.lookup_cons_self]
  | none =>
    have hent := cache_st_miss_entries E cache text lbls θ hl
    set P := cached_process_text_st E cache text lbls θ with hP
    have h2 : cached_process_text_st E P.2.1 text lbls θ
        = (P.1, ⟨((text, lbls, θ), P.1) ::
            P.2.1.entries.filter (fun e => !(e.1 = (text, lbls, θ) : Bool))⟩, 0) := by
      simp only [cached_process_text_st, hent, lookup_take_cache]
    rw [h2]
    exact ⟨rfl, rfl⟩

/-- C9: when the extractor raises for a fresh non-blank key, the degraded
`[]` is stored in the LRU cache exactly like a success: the failing call
reports one extractor invocation, the key now maps to `[]`, and the next
call with the same key returns `[]` with zero extractor invocations. -/
theorem failure_result_cached (E : Extractor) (cache : LruCache)
    (text : String) (lbls : List String) (θ : Rat)
    (hfail : E.predict_entities text lbls θ = Except.error ())
    (hnb : isBlank text = false)
    (hl : cache.entries.lookup (text, lbls, θ) = none) :
    (cached_process_text_st E cache text lbls θ).1 = []
    ∧ (cached_process_text_st E cache text lbls θ).2.2 = 1
    ∧ (cached_process_text_st E cache text lbls θ).2.1.entries.lookup
        (text, lbls, θ) = some []
    ∧ (cached_process_text_st E
        (cached_process_text_st E cache text lbls θ).2.1 text lbls θ).1 = []
    ∧ (cached_process_text_st E
        (cached_process_text_st E cache text lbls θ).2.1 text lbls θ).2.2 = 0 := by
  have h1 : cached_process_text_st E cache text lbls θ
      = ([], ⟨(((text, lbls, θ), ([] : List NerEntity)) :: cache.entries).take
          CACHE_SIZE⟩, 1) := by
    simp only [cached_process_text_st, hl, hnb, Bool.false_eq_true, if_false, hfail]
  rw [h1]
  refine ⟨rfl, rfl, lookup_take_cache _ _ _, ?_, ?_⟩ <;>
    simp only [cached_process_text_st, lookup_take_cache]

/-- Witness for C9: extractor raising on the one-character text `"x"`. -/
theorem failure_result_cached_witness :
    (failingOnExtractor echoEx "x").predict_entities "x" [] 0 = Except.error ()
    ∧ isBlank "x" = false
    ∧ (⟨[]⟩ : LruCache).entries.lookup ("x", [], 0) = none
    ∧ ((cached_process_text_st (failingOnExtractor echoEx "x") ⟨[]⟩ "x" [] 0).1 = []
      ∧ (cached_process_text_st (failingOnExtractor echoEx "x") ⟨[]⟩ "x" [] 0).2.2 = 1
      ∧ (cached_process_text_st (failingOnExtractor echoEx "x") ⟨[]⟩ "x" [] 0).2.1.entries.lookup
          ("x", [], 0) = some []
      ∧ (cached_process_text_st (failingOnExtractor echoEx "x")
          (cached_process_text_st (failingOnExtractor echoEx "x") ⟨[]⟩ "x" [] 0).2.1
          "x" [] 0).1 = []
      ∧ (cached_process_text_st (failingOnExtractor echoEx "x")
          (cached_process_text_st (failingOnExtractor echoEx "x") ⟨[]⟩ "x" [] 0).2.1
          "x" [] 0).2.2 = 0) :=
  ⟨rfl, by decide, rfl,
   failure_result_cached (failingOnExtractor echoEx "x") ⟨[]⟩ "x" [] 0
     rfl (by decide) rfl⟩

/-- Any request hitting a worker whose `gliner_model` is `None` is turned
away with the 503 error by the own guard of the handler. -/
theorem detect_entities_no_model (pyHash : String → Int) (ord : List Nat)
    (st : ServerState) (samples : List String)
    (h : st.gliner_model = none) :
    (detect_entities pyHash ord st samples).1
      = Except.error (DetectError.unavailable503
          "Model is not loaded yet. Please try again later.") := by
  rcases st with ⟨ready, model, err, cache⟩
  simp only at h
  subst h
  rfl

theorem calc_key_take_100 (pyHash : String → Int) (s : List String) :
    calc_cache_key pyHash (s.take 100) = calc_cache_key pyHash s := by
  unfold calc_cache_key
  rw [List.take_take]
  norm_num

/-- C8: the request-level cache key depends only on the first 10 samples,
so a second request agreeing with a previous one on its first 10 samples
is answered with the cached result of the previous request, even if the two
requests differ beyond position 10. -/
theorem request_cache_key_prefix_only
    (pyHash : String → Int) (ord1 ord2 : List Nat) (ex : String → List RawEntity)
    (b : Bool) (err : Option String) (s1 s2 : List String)
    (h10 : s1.take 10 = s2.take 10)
    (h1 : ¬ s1.isEmpty = true) (h2 : ¬ s2.isEmpty = true) :
    calc_cache_key pyHash s1 = calc_cache_key pyHash s2
    ∧ (detect_entities pyHash ord2
        (detect_entities pyHash ord1
          ⟨true, some (pureExtractor ex b), err, []⟩ s1).2 s2).1
      = (detect_entities pyHash ord1
          ⟨true, some (pureExtractor ex b), err, []⟩ s1).1 := by
  have hkey : calc_cache_key pyHash s1 = calc_cache_key pyHash s2 := by
    unfold calc_cache_key
    rw [h10]
  refine ⟨hkey, ?_⟩
  rw [detect_entities_run pyHash ord1 _ err s1 h1]
  simp only [detect_entities, h2, Bool.false_eq_true, if_false, take_min_100]
  have hk2 : calc_cache_key pyHash (s2.take 100)
      = calc_cache_key pyHash (s1.take 100) := by
    rw [calc_key_take_100, calc_key_take_100, hkey]
  rw [hk2, List.lookup_cons_self]

/-- Witness for C8: two 11-sample requests sharing their first 10 samples
and differing at position 10. -/
theorem request_cache_key_prefix_only_witness :
    (List.replicate 10 "a" ++ ["b"]).take 10 = (List.replicate 10 "a" ++ ["c"]).take 10
    ∧ ¬ (List.replicate 10 "a" ++ ["b"]).isEmpty = true
    ∧ ¬ (List.replicate 10 "a" ++ ["c"]).isEmpty = true
    ∧ (calc_cache_key (fun s => (s.length : Int)) (List.replicate 10 "a" ++ ["b"])
        = calc_cache_key (fun s => (s.length : Int)) (List.replicate 10 "a" ++ ["c"])
    ∧ (detect_entities (fun s => (s.length : Int)) []
        (detect_entities (fun s => (s.length : Int)) []
          ⟨true, some (pureExtractor echoEx false), none, []⟩
          (List.replicate 10 "a" ++ ["b"])).2
        (List.replicate 10 "a" ++ ["c"])).1
      = (detect_entities (fun s => (s.length : Int)) []
          ⟨true, some (pureExtractor echoEx false), none, []⟩
          (List.replicate 10 "a" ++ ["b"])).1) :=
  ⟨by decide, by decide, by decide,
   request_cache_key_prefix_only (fun s => (s.length : Int)) [] [] echoEx false none
     (List.replicate 10 "a" ++ ["b"]) (List.replicate 10 "a" ++ ["c"])
     (by decide) (by decide) (by decide)⟩

/-- C10: when the cross-worker ready flag is already set, the load routine
marks the worker ready without installing a model; in that state the
middleware forwards `POST /detect-pii`, but the handler itself rejects
every request with the 503 error — the gate reporting ready does not mean
this worker can serve inference. -/
theorem ready_flag_without_model (loadResult : Except String Extractor)
    (st : ServerState) (hmodel : st.gliner_model = none) :
    (load_model_in_background loadResult true st).2.is_model_ready = true
    ∧ (load_model_in_background loadResult true st).2.gliner_model = none
    ∧ ensure_model_loaded
        (load_model_in_background loadResult true st).2.is_model_ready
        (load_model_in_background loadResult true st).2.model_loading_error
        "/detect-pii"
      = MiddlewareOutcome.forward
    ∧ ∀ (pyHash : String → Int) (ord : List Nat) (samples : List String),
        (detect_entities pyHash ord
            (load_model_in_background loadResult true st).2 samples).1
          = Except.error (DetectError.unavailable503
              "Model is not loaded yet. Please try again later.") := by
  have h1 : (load_model_in_background loadResult true st).2
      = { st with is_model_ready := true } := by
    simp only [load_model_in_background]
    rw [if_pos trivial]
  rw [h1]
  refine ⟨rfl, hmodel, ?_, ?_⟩
  · show ensure_model_loaded true
        ({ st with is_model_ready := true } : ServerState).model_loading_error
        "/detect-pii" = MiddlewareOutcome.forward
    unfold ensure_model_loaded
    rw [if_neg (by decide), if_neg (by decide)]
  · intro pyHash ord samples
    exact detect_entities_no_model pyHash ord _ samples hmodel

/-- Witness for C10: a fresh worker (no model, not ready) running the load
routine while the shared flag is already set. -/
theorem ready_flag_without_model_witness :
    (⟨false, none, none, []⟩ : ServerState).gliner_model = none
    ∧ ((load_model_in_background (Except.error "load") true
          ⟨false, none, none, []⟩).2.is_model_ready = true
    ∧ (load_model_in_background (Except.error "load") true
          ⟨false, none, none, []⟩).2.gliner_model = none
    ∧ ensure_model_loaded
        (load_model_in_background (Except.error "load") true
          ⟨false, none, none, []⟩).2.is_model_ready
        (load_model_in_background (Except.error "load") true
          ⟨false, none, none, []⟩).2.model_loading_error
        "/detect-pii"
      = MiddlewareOutcome.forward
    ∧ ∀ (pyHash : String → Int) (ord : List Nat) (samples : List String),
        (detect_entities pyHash ord
            (load_model_in_background (Except.error "load") true
              ⟨false, none, none, []⟩).2 samples).1
          = Except.error (DetectError.unavailable503
              "Model is not loaded yet. Please try again later.")) :=
  ⟨rfl,
   ready_flag_without_model (Except.error "load") ⟨false, none, none, []⟩ rfl⟩

/-- C1 (code bug): in the Loading state a request to the mounted health
route path `/detect-pii/health` is NOT exempted by the readiness
middleware — the middleware compares the path against `"/health"`, which
differs from the route — so the request is short-circuited with the
503-equivalent body and the health handler, which would have answered
`"initializing"`, is never reached. -/
theorem health_endpoint_gated_while_loading :
    ensure_model_loaded false none health_endpoint_path
      = MiddlewareOutcome.shortCircuit503
          "Model is not loaded yet. Please try again later."
    ∧ health_endpoint_path ≠ "/health"
    ∧ health_check_status false none none = "initializing" := by
  refine ⟨by decide, by decide, rfl⟩

end NerService
